import Mathlib

/-!
# Verification of the scribbles scrobble engine

Shallow embedding, in Lean 4, of the parts of the `scribbles` repository
that the specification's claims are about:

* `internal/scrobbler` rules (`ShouldScrobble`, `ScrobbleThreshold`),
* the daemon's play-accounting state (`State` / `TrackState`,
  `UpdatePosition`, `GetPlayedDuration`, `MarkScrobbled`) and the
  eligibility check (`Daemon.checkAndScrobble`),
* the durable queue's read path (`Queue.GetPending`),
* the two batch-scrobble entry points (`pkg/lastfm`'s
  `ScrobbleService.ScrobbleBatch` and `internal/scrobbler`'s
  `Client.ScrobbleBatch`),
* the protocol client's retry loop (`Client.call`, `Error.Temporary`),
* request signing (`pkg/lastfm`'s `calculateSignature`, including a full
  executable MD5).

Go `time.Duration` values (int64 nanoseconds) and `time.Time` instants are
embedded as `Int` (nanoseconds); a Go zero `time.Time` used as a sentinel
(`PausedAt.IsZero()`) is embedded as `Option Int` with `none` for the zero
value.  Go machine integers are embedded as `Int`/`Nat` with explicit
`% 2 ^ 32` where 32-bit overflow matters (inside MD5).
-/

namespace Scribbles

/-! ## internal/scrobbler rules (`rules.go`)

Constants and the two rule functions, embedded from the source.  The Go
source computes the pre-cap threshold as
`time.Duration(float64(trackDuration) * 0.5)`: `float64` conversion of an
`int64`, multiplication by `0.5` (exact), and truncation toward zero back
to `int64`.  For every `trackDuration ≥ 0` this equals `⌊trackDuration/2⌋`
whenever `trackDuration < 2^53` (the conversion is exact there), and for
`trackDuration ≥ 2^53` both the float result and `⌊trackDuration/2⌋`
exceed the 4-minute cap and are clamped to it, so `trackDuration / 2`
followed by the cap is extensionally the same function on the domain the
guard lets through (`trackDuration ≥ 30s > 0`). -/

/-- `MinimumTrackDuration = 30 * time.Second` in nanoseconds. -/
def MinimumTrackDuration : Int := 30 * 1000000000

/-- `MaxScrobbleThreshold = 4 * time.Minute` in nanoseconds. -/
def MaxScrobbleThreshold : Int := 4 * 60 * 1000000000

/-- `ShouldScrobble(trackDuration, playedDuration)` from
`internal/scrobbler/rules.go`. -/
def ShouldScrobble (trackDuration playedDuration : Int) : Bool :=
  if trackDuration < MinimumTrackDuration then
    false
  else
    let threshold := trackDuration / 2
    let threshold :=
      if threshold > MaxScrobbleThreshold then MaxScrobbleThreshold else threshold
    decide (playedDuration ≥ threshold)

/-- `ScrobbleThreshold(trackDuration)` from `internal/scrobbler/rules.go`:
returns `time.Duration(-1)` for tracks under 30 seconds, otherwise half the
duration capped at 4 minutes. -/
def ScrobbleThreshold (trackDuration : Int) : Int :=
  if trackDuration < MinimumTrackDuration then
    -1
  else
    let threshold := trackDuration / 2
    if threshold > MaxScrobbleThreshold then MaxScrobbleThreshold else threshold

/-- `IsEligible(trackDuration)` from `internal/scrobbler/rules.go`. -/
def IsEligible (trackDuration : Int) : Bool :=
  decide (trackDuration ≥ MinimumTrackDuration)

/-! ## internal/music track model (`client.go`)

`music.PlayState` and `music.Track`.  Durations and positions are
nanoseconds (`Int`). -/

/-- `music.PlayState`. -/
inductive PlayState where
  | stopped
  | playing
  | paused
deriving DecidableEq, Repr

/-- `music.Track`. -/
structure Track where
  name : String
  artist : String
  album : String
  duration : Int
  position : Int
  state : PlayState
deriving DecidableEq, Repr

/-! ## Daemon play-accounting state (`internal/daemon/state.go`)

`TrackState` and the `State` methods.  A Go `*music.Track` that may be nil
is `Option Track`; the Go zero `time.Time` sentinel in `PausedAt`
(tested with `IsZero()`) is `none`.  Wall-clock instants are `Int`
nanoseconds; each method that calls `time.Now()` takes the current instant
`now` as an explicit argument.

The Go `State` persists (`persist()`) exactly once at the end of every
branch of `SetTrack`, `UpdatePosition`, `MarkScrobbled` and `Reset`; the
write is modelled by appending the new `TrackState` to a write log
(`StateM.writes`), abstracting the JSON rendering and the
temp-file-plus-rename of the actual file write. -/

/-- `daemon.TrackState`. -/
structure TrackState where
  track : Option Track
  startTime : Int
  scrobbled : Bool
  pausedAt : Option Int
  totalPlayTime : Int
deriving DecidableEq, Repr

/-- The Go zero value `TrackState{}` (empty state). -/
def TrackState.empty : TrackState :=
  { track := none, startTime := 0, scrobbled := false,
    pausedAt := none, totalPlayTime := 0 }

/-- `isSameTrack(t1, t2)` from `internal/daemon/state.go`: same play
candidate iff name, artist and album all match (false when either side is
nil). -/
def isSameTrack : Option Track → Option Track → Bool
  | some t1, some t2 =>
      t1.name == t2.name && t1.artist == t2.artist && t1.album == t2.album
  | _, _ => false

/-- The fresh state built by `SetTrack` and by the new-track branches of
`UpdatePosition`: `TrackState{Track: track, StartTime: time.Now(),
Scrobbled: false, TotalPlayTime: 0}` (PausedAt left at the zero value). -/
def TrackState.fresh (now : Int) (track : Option Track) : TrackState :=
  { track := track, startTime := now, scrobbled := false,
    pausedAt := none, totalPlayTime := 0 }

/-- The state transition of `State.UpdatePosition(track)` on the current
`TrackState` (the daemon always passes a non-nil track here, guarded by
`handleTrackUpdate`). -/
def updatePositionCore (now : Int) (track : Track) (s : TrackState) : TrackState :=
  match s.track with
  | none => TrackState.fresh now (some track)
  | some _ =>
    if ¬ isSameTrack s.track (some track) then
      TrackState.fresh now (some track)
    else
      match track.state with
      | PlayState.playing =>
          match s.pausedAt with
          | some p =>
              { s with
                totalPlayTime := s.totalPlayTime + (p - s.startTime),
                startTime := now,
                pausedAt := none }
          | none => s
      | PlayState.paused =>
          match s.pausedAt with
          | none => { s with pausedAt := some now }
          | some _ => s
      | PlayState.stopped => TrackState.empty

/-- `State.GetPlayedDuration()`: accumulated play time, accounting for the
current segment.  `now` is the instant `time.Since(...)` is evaluated
at. -/
def GetPlayedDuration (now : Int) (s : TrackState) : Int :=
  match s.pausedAt with
  | some p => s.totalPlayTime + (p - s.startTime)
  | none =>
    match s.track with
    | some t =>
        if t.state = PlayState.playing then
          s.totalPlayTime + (now - s.startTime)
        else
          s.totalPlayTime
    | none => s.totalPlayTime

/-- `State.MarkScrobbled()` state transition. -/
def markScrobbledCore (s : TrackState) : TrackState :=
  { s with scrobbled := true }

/-- The daemon `State` together with its log of persisted snapshots: every
method of the Go `State` ends in `persist()`, which writes the new state
to the state file.  `writes` records each such write in order. -/
structure StateM where
  current : TrackState
  writes : List TrackState
deriving DecidableEq, Repr

/-- `State.SetTrack(track)`: reset to a fresh state and persist. -/
def StateM.setTrack (now : Int) (track : Option Track) (s : StateM) : StateM :=
  let c := TrackState.fresh now track
  { current := c, writes := s.writes ++ [c] }

/-- `State.UpdatePosition(track)`: apply the transition and persist
(every branch of the Go method ends in `return s.persist()`). -/
def StateM.updatePosition (now : Int) (track : Track) (s : StateM) : StateM :=
  let c := updatePositionCore now track s.current
  { current := c, writes := s.writes ++ [c] }

/-- `State.MarkScrobbled()`: set the flag and persist. -/
def StateM.markScrobbled (s : StateM) : StateM :=
  let c := markScrobbledCore s.current
  { current := c, writes := s.writes ++ [c] }

/-- `State.Reset()`: clear the state and persist. -/
def StateM.reset (s : StateM) : StateM :=
  { current := TrackState.empty, writes := s.writes ++ [TrackState.empty] }

/-! ## Daemon eligibility check (`internal/daemon/daemon.go`)

`Daemon.checkAndScrobble` reads the play state, and when the current track
is unscrobbled and `ShouldScrobble` holds for its played duration, builds
a `scrobbler.Scrobble` with `Timestamp: time.Now()`, appends it to the
queue (`Queue.Add` inserts at the end; SQLite assigns the next monotonic
id) and marks the state scrobbled.  The two `time.Now()` readings inside
one invocation (via `GetPlayedDuration` and for the timestamp) are
modelled as the same instant `now`. -/

/-- `scrobbler.Scrobble` from `internal/scrobbler/client.go`
(`Timestamp` in nanoseconds, like all instants in this model). -/
structure Scrobble where
  artist : String
  track : String
  album : String
  timestamp : Int
  duration : Int
deriving DecidableEq, Repr

/-- `Daemon.checkAndScrobble` acting on the play state and the queue
contents (the list of queued scrobbles, in insertion order). -/
def checkAndScrobble (now : Int) (s : StateM) (queue : List Scrobble) :
    StateM × List Scrobble :=
  match s.current.track with
  | none => (s, queue)
  | some track =>
    if s.current.scrobbled then
      (s, queue)
    else
      let playedDuration := GetPlayedDuration now s.current
      if ¬ ShouldScrobble track.duration playedDuration then
        (s, queue)
      else
        let scrobble : Scrobble :=
          { track := track.name, artist := track.artist, album := track.album,
            duration := track.duration, timestamp := now }
        (s.markScrobbled, queue ++ [scrobble])

/-! ## Durable queue read path (`internal/scrobbler/queue.go`)

The `scrobbles` table is modelled as the list of its rows in insertion
(rowid) order.  `duration` is whole seconds and `timestamp` Unix seconds,
as converted by `Queue.Add` before insertion. -/

/-- `scrobbler.QueuedScrobble`, one row of the `scrobbles` table. -/
structure QueuedScrobble where
  id : Int
  trackName : String
  artist : String
  album : String
  duration : Int
  timestamp : Int
  scrobbled : Bool
  error : String
deriving DecidableEq, Repr

/-- The `ORDER BY timestamp ASC` comparison of `Queue.GetPending`. -/
def byTimestamp (a b : QueuedScrobble) : Prop :=
  a.timestamp ≤ b.timestamp

instance : DecidableRel byTimestamp :=
  fun a b => Int.decLe a.timestamp b.timestamp

instance : IsTotal QueuedScrobble byTimestamp :=
  ⟨fun a b => Int.le_total a.timestamp b.timestamp⟩

instance : IsTrans QueuedScrobble byTimestamp :=
  ⟨fun _ _ _ => Int.le_trans⟩

/-- `Queue.GetPending(ctx, limit)`: `SELECT ... FROM scrobbles WHERE
scrobbled = 0 ORDER BY timestamp ASC`, with `LIMIT limit` appended when
`limit > 0`.  SQLite's (stable in practice) ordering of equal timestamps
is modelled by a stable insertion sort. -/
def GetPending (limit : Int) (rows : List QueuedScrobble) : List QueuedScrobble :=
  let pending := rows.filter (fun r => !r.scrobbled)
  let sorted := pending.insertionSort byTimestamp
  if limit > 0 then sorted.take limit.toNat else sorted

/-! ## Batch scrobble operations

Two distinct implementations exist in the repository.

`pkg/lastfm/scrobble.go`'s `ScrobbleService.ScrobbleBatch` silently
truncates oversized batches to `MaxBatchSize`; the model returns the batch
it hands to `client.call` (the HTTP request and response parsing past that
point are the network boundary).

`internal/scrobbler/client.go`'s `Client.ScrobbleBatch` — the one the
daemon's queue drain uses — instead rejects batches of more than 50 with
an error before any request is made. -/

namespace Lastfm

/-- `lastfm.Track` from `pkg/lastfm/types.go` (`Duration` in seconds). -/
structure Track where
  artist : String
  track : String
  album : String
  albumArtist : String
  duration : Int
  trackNumber : Int
  mbTrackID : String
deriving DecidableEq, Repr

/-- `lastfm.Scrobble` from `pkg/lastfm/types.go` (`Timestamp` in
nanoseconds like all instants in this model). -/
structure Scrobble where
  track : Track
  timestamp : Int
deriving DecidableEq, Repr

/-- `lastfm.MaxBatchSize` from `pkg/lastfm/scrobble.go`. -/
def MaxBatchSize : Nat := 50

/-- `ScrobbleService.ScrobbleBatch(ctx, scrobbles)` up to the point the
request is handed to `Client.call`: the value returned is the batch
actually submitted. -/
def ScrobbleService.ScrobbleBatch (sessionKey : String)
    (scrobbles : List Scrobble) : Except String (List Scrobble) :=
  if sessionKey = "" then
    Except.error "lastfm: session key required for scrobbling"
  else if scrobbles.length = 0 then
    Except.ok []
  else
    let scrobbles :=
      if scrobbles.length > MaxBatchSize then scrobbles.take MaxBatchSize
      else scrobbles
    Except.ok scrobbles

end Lastfm

/-- `Client.ScrobbleBatch(ctx, scrobbles)` from
`internal/scrobbler/client.go`, up to the point the request is handed to
the lastfm-go library: the value returned is the batch actually
submitted. -/
def Client.ScrobbleBatch (scrobbles : List Scrobble) :
    Except String (List Scrobble) :=
  if scrobbles.length = 0 then
    Except.ok []
  else if scrobbles.length > 50 then
    Except.error
      ("cannot scrobble more than 50 tracks at once (got " ++
        toString scrobbles.length ++ ")")
  else
    Except.ok scrobbles

/-! ## Protocol client retry loop (`pkg/lastfm/client.go`, `errors.go`)

`Client.call` runs up to `maxRetries = 3` attempts.  Each attempt's
outcome at the transport/parse boundary is one `Response`; the loop's
decision logic (which outcomes retry, which return at once) is embedded
from the source.  The result carries the number of HTTP attempts actually
made. -/

/-- `Error.Temporary()` from `pkg/lastfm/errors.go`: only Last.fm codes 11
(Service Offline) and 16 (Service Temporarily Unavailable) are
temporary. -/
def Error.Temporary (code : Int) : Bool :=
  code = 11 || code = 16

/-- `nextBackoff(current)` from `pkg/lastfm/client.go`: double, capped at
30 seconds. -/
def nextBackoff (current : Int) : Int :=
  let next := current * 2
  if next > 30 * 1000000000 then 30 * 1000000000 else next

/-- The outcome of one HTTP attempt inside `Client.call`, as seen at the
decision points of the source: a transport error
(`shouldRetryNetworkError` already applied), an HTTP status, or a parsed
`lfm` document (`status="failed"` with an error code, or `status="ok"`
with a payload). -/
inductive Response where
  | networkError (retryable : Bool)
  | httpStatus (status : Int)
  | apiFailed (code : Int) (message : String)
  | okResponse (payload : String)
deriving DecidableEq, Repr

/-- What `Client.call` returns to its caller. -/
inductive CallOutcome where
  | success (payload : String)
  | httpRequestFailed
  | serverError (status : Int)
  | unexpectedStatus (status : Int)
  | apiError (code : Int) (message : String)
  | maxRetriesExceeded
  | noResponse
deriving DecidableEq, Repr

/-- The retry loop of `Client.call`, with `remaining` attempts left
(`remaining = maxRetries - i`); returns the outcome and the number of
attempts consumed.  The backoff sleeps always complete (no context
cancellation in this model). -/
def callGo : List Response → Nat → CallOutcome × Nat
  | _, 0 => (CallOutcome.maxRetriesExceeded, 0)
  | [], _ + 1 => (CallOutcome.noResponse, 0)
  | r :: rest, n + 1 =>
    match r with
    | Response.networkError retryable =>
        if retryable ∧ n ≥ 1 then
          let (o, k) := callGo rest n
          (o, k + 1)
        else
          (CallOutcome.httpRequestFailed, 1)
    | Response.httpStatus status =>
        if status ≥ 500 then
          if n ≥ 1 then
            let (o, k) := callGo rest n
            (o, k + 1)
          else
            (CallOutcome.serverError status, 1)
        else if status ≠ 200 then
          (CallOutcome.unexpectedStatus status, 1)
        else
          (CallOutcome.noResponse, 1)
    | Response.apiFailed code message =>
        if Error.Temporary code ∧ n ≥ 1 then
          let (o, k) := callGo rest n
          (o, k + 1)
        else
          (CallOutcome.apiError code message, 1)
    | Response.okResponse payload =>
        (CallOutcome.success payload, 1)

/-- `Client.call` with the source's `maxRetries := 3`. -/
def Client.call (attempts : List Response) : CallOutcome × Nat :=
  callGo attempts 3

/-! ## Request signing (`pkg/lastfm/signature.go`)

`calculateSignature` sorts the parameter keys alphabetically, concatenates
`key ∥ value` for each key in that order, appends the API secret and
hex-encodes the MD5 digest of the resulting string's bytes.  Go strings
are UTF-8 byte sequences and Go's `sort.Strings` is bytewise
lexicographic, which on UTF-8 encodings coincides with the code-point
lexicographic order of Lean's `String` ≤.  MD5 — called through Go's
`crypto/md5` — is implemented below in full (RFC 1321) over `Nat` with
explicit 32-bit reduction. -/

namespace MD5

/-- Truncation to 32 bits. -/
def w32 (n : Nat) : Nat := n % 4294967296

/-- Bitwise complement on 32 bits (for `n < 2^32` this is `n XOR
0xffffffff`). -/
def compl32 (n : Nat) : Nat := 4294967295 - w32 n

/-- Left rotation of a 32-bit word by `s` bits. -/
def rotl (s n : Nat) : Nat := w32 (n * 2 ^ s + n / 2 ^ (32 - s))

/-- The 64 sine-derived round constants `K[i] = ⌊2^32·|sin(i+1)|⌋`. -/
def K : List Nat :=
  [0xd76aa478, 0xe8c7b756, 0x242070db, 0xc1bdceee,
   0xf57c0faf, 0x4787c62a, 0xa8304613, 0xfd469501,
   0x698098d8, 0x8b44f7af, 0xffff5bb1, 0x895cd7be,
   0x6b901122, 0xfd987193, 0xa679438e, 0x49b40821,
   0xf61e2562, 0xc040b340, 0x265e5a51, 0xe9b6c7aa,
   0xd62f105d, 0x02441453, 0xd8a1e681, 0xe7d3fbc8,
   0x21e1cde6, 0xc33707d6, 0xf4d50d87, 0x455a14ed,
   0xa9e3e905, 0xfcefa3f8, 0x676f02d9, 0x8d2a4c8a,
   0xfffa3942, 0x8771f681, 0x6d9d6122, 0xfde5380c,
   0xa4beea44, 0x4bdecfa9, 0xf6bb4b60, 0xbebfbc70,
   0x289b7ec6, 0xeaa127fa, 0xd4ef3085, 0x04881d05,
   0xd9d4d039, 0xe6db99e5, 0x1fa27cf8, 0xc4ac5665,
   0xf4292244, 0x432aff97, 0xab9423a7, 0xfc93a039,
   0x655b59c3, 0x8f0ccc92, 0xffeff47d, 0x85845dd1,
   0x6fa87e4f, 0xfe2ce6e0, 0xa3014314, 0x4e0811a1,
   0xf7537e82, 0xbd3af235, 0x2ad7d2bb, 0xeb86d391]

/-- The per-round left-rotation amounts. -/
def S : List Nat :=
  [7, 12, 17, 22, 7, 12, 17, 22, 7, 12, 17, 22, 7, 12, 17, 22,
   5, 9, 14, 20, 5, 9, 14, 20, 5, 9, 14, 20, 5, 9, 14, 20,
   4, 11, 16, 23, 4, 11, 16, 23, 4, 11, 16, 23, 4, 11, 16, 23,
   6, 10, 15, 21, 6, 10, 15, 21, 6, 10, 15, 21, 6, 10, 15, 21]

/-- The message-word index used in round `i`. -/
def g (i : Nat) : Nat :=
  if i < 16 then i
  else if i < 32 then (5 * i + 1) % 16
  else if i < 48 then (3 * i + 5) % 16
  else (7 * i) % 16

/-- The nonlinear mixing function of round `i`. -/
def F (i b c d : Nat) : Nat :=
  if i < 16 then (b &&& c) ||| (compl32 b &&& d)
  else if i < 32 then (d &&& b) ||| (compl32 d &&& c)
  else if i < 48 then b ^^^ c ^^^ d
  else c ^^^ (b ||| compl32 d)

/-- Little-endian 32-bit word `j` of a 64-byte block. -/
def leWord (block : List Nat) (j : Nat) : Nat :=
  block.getD (4 * j) 0 + 256 * block.getD (4 * j + 1) 0 +
    65536 * block.getD (4 * j + 2) 0 + 16777216 * block.getD (4 * j + 3) 0

/-- One of the 64 MD5 rounds on the state `(a, b, c, d)`. -/
def step (block : List Nat) (st : Nat × Nat × Nat × Nat) (i : Nat) :
    Nat × Nat × Nat × Nat :=
  match st with
  | (a, b, c, d) =>
    let f := w32 (F i b c d + a + K.getD i 0 + leWord block (g i))
    (d, w32 (b + rotl (S.getD i 0) f), b, c)

/-- Compression of one 64-byte block into the running state. -/
def processBlock (h : Nat × Nat × Nat × Nat) (block : List Nat) :
    Nat × Nat × Nat × Nat :=
  match h, (List.range 64).foldl (step block) h with
  | (h0, h1, h2, h3), (a, b, c, d) =>
    (w32 (h0 + a), w32 (h1 + b), w32 (h2 + c), w32 (h3 + d))

/-- The `k` little-endian bytes of `n`. -/
def leBytes (k n : Nat) : List Nat :=
  (List.range k).map (fun i => n / 2 ^ (8 * i) % 256)

/-- MD5 padding: a `0x80` byte, zeros to 56 mod 64, then the bit length
as a little-endian 64-bit quantity. -/
def padMessage (msg : List Nat) : List Nat :=
  let zeros := (120 - (msg.length + 1) % 64) % 64
  msg ++ [0x80] ++ List.replicate zeros 0 ++
    leBytes 8 (8 * msg.length % 18446744073709551616)

/-- The 16-byte MD5 digest of a byte sequence. -/
def md5Digest (msg : List Nat) : List Nat :=
  let padded := padMessage msg
  match (List.range (padded.length / 64)).foldl
      (fun h i => processBlock h ((padded.drop (64 * i)).take 64))
      (0x67452301, 0xefcdab89, 0x98badcfe, 0x10325476) with
  | (a, b, c, d) => leBytes 4 a ++ leBytes 4 b ++ leBytes 4 c ++ leBytes 4 d

/-- Lowercase hex digit. -/
def hexChar (n : Nat) : Char :=
  if n < 10 then Char.ofNat (48 + n) else Char.ofNat (87 + n)

/-- `hex.EncodeToString`: lowercase hex of a byte sequence. -/
def hexEncode (bytes : List Nat) : String :=
  String.join (bytes.map (fun b => String.mk [hexChar (b / 16), hexChar (b % 16)]))

end MD5

/-- The UTF-8 bytes of a string (how Go lays out and hashes its
strings). -/
def utf8Bytes (s : String) : List Nat :=
  (s.data.map (fun c =>
    let n := c.toNat
    if n < 128 then [n]
    else if n < 2048 then [192 + n / 64, 128 + n % 64]
    else if n < 65536 then
      [224 + n / 4096, 128 + n / 64 % 64, 128 + n % 64]
    else
      [240 + n / 262144, 128 + n / 4096 % 64, 128 + n / 64 % 64,
       128 + n % 64])).flatten

/-- `calculateSignature(params, secret)` from `pkg/lastfm/signature.go`.
The Go `map[string]string` is an association list whose keys are distinct;
iteration order is immaterial because the keys are sorted before use
(`calculateSignature_deterministic` makes that formal). -/
def calculateSignature (params : List (String × String)) (secret : String) :
    String :=
  let keys := params.map Prod.fst
  let sortedKeys := keys.insertionSort (· ≤ ·)
  let sigPlain :=
    sortedKeys.foldl (fun acc k => acc ++ k ++ ((params.lookup k).getD "")) ""
  let sigPlain := sigPlain ++ secret
  MD5.hexEncode (MD5.md5Digest (utf8Bytes sigPlain))

/-- The signature as the specification words it: the parameters sorted
alphabetically by key, `key ∥ value` concatenated in that order, the
secret appended, then hex of the MD5 hash. -/
def specSignature (params : List (String × String)) (secret : String) :
    String :=
  let sortedParams := params.insertionSort (fun a b => a.1 ≤ b.1)
  let concatenated :=
    sortedParams.foldl (fun acc kv => acc ++ kv.1 ++ kv.2) ""
  MD5.hexEncode (MD5.md5Digest (utf8Bytes (concatenated ++ secret)))

instance : IsTotal (String × String) (fun a b => a.1 ≤ b.1) :=
  ⟨fun a b => le_total a.1 b.1⟩

instance : IsTrans (String × String) (fun a b => a.1 ≤ b.1) :=
  ⟨fun _ _ _ h₁ h₂ => le_trans h₁ h₂⟩

end Scribbles

namespace Scribbles

/-- C2 -/
theorem shouldScrobble_iff (d p : Int) :
    ShouldScrobble d p = true ↔
      d ≥ 30 * 1000000000 ∧ p ≥ min (d / 2) (240 * 1000000000) := by
  unfold ShouldScrobble MinimumTrackDuration MaxScrobbleThreshold
  split_ifs <;> simp <;> omega

/-- C10: for tracks under 30 seconds `ScrobbleThreshold` returns the
sentinel `-1`, every non-negative played duration meets it, and the
threshold comparison alone does not rule out short tracks — only the
duration guard inside `ShouldScrobble` does. -/
theorem scrobbleThreshold_short_sentinel :
    (∀ d : Int, d < 30 * 1000000000 → ScrobbleThreshold d = -1) ∧
    (∀ d p : Int, d < 30 * 1000000000 → 0 ≤ p → p ≥ ScrobbleThreshold d) ∧
    (∃ d p : Int, d < 30 * 1000000000 ∧ 0 ≤ p ∧ p ≥ ScrobbleThreshold d ∧
      ShouldScrobble d p = false) := by
  refine ⟨fun d hd => ?_, fun d p hd hp => ?_, 25 * 1000000000, 25 * 1000000000,
    by decide, by decide, by decide, by decide⟩
  · unfold ScrobbleThreshold MinimumTrackDuration
    rw [if_pos hd]
  · unfold ScrobbleThreshold MinimumTrackDuration
    rw [if_pos hd]
    omega

/-- Witness for `scrobbleThreshold_short_sentinel` at a 25-second track. -/
theorem scrobbleThreshold_short_sentinel_witness :
    ScrobbleThreshold (25 * 1000000000) = -1 ∧
    (20 * 1000000000 : Int) ≥ ScrobbleThreshold (25 * 1000000000) :=
  ⟨scrobbleThreshold_short_sentinel.1 (25 * 1000000000) (by decide),
   scrobbleThreshold_short_sentinel.2.1 (25 * 1000000000) (20 * 1000000000)
     (by decide) (by decide)⟩

/-- C6: `GetPlayedDuration` returns `totalPlayTime + (pausedAt − startTime)`
when paused and `totalPlayTime + (now − startTime)` when playing; the resume
transition of `UpdatePosition` adds `pausedAt − startTime` to
`totalPlayTime`, sets `startTime := now` and clears `pausedAt`, so the
played duration is unchanged across a pause/resume pair at the resume
instant. -/
theorem playedDuration_and_resume :
    (∀ (s : TrackState) (now p : Int), s.pausedAt = some p →
        GetPlayedDuration now s = s.totalPlayTime + (p - s.startTime)) ∧
    (∀ (s : TrackState) (now : Int) (t : Track), s.pausedAt = none →
        s.track = some t → t.state = PlayState.playing →
        GetPlayedDuration now s = s.totalPlayTime + (now - s.startTime)) ∧
    (∀ (s : TrackState) (now : Int) (t' : Track) (p : Int),
        isSameTrack s.track (some t') = true →
        t'.state = PlayState.playing → s.pausedAt = some p →
        updatePositionCore now t' s =
          { s with totalPlayTime := s.totalPlayTime + (p - s.startTime),
                   startTime := now, pausedAt := none }) ∧
    (∀ (s : TrackState) (now : Int) (t t' : Track) (p : Int),
        s.track = some t → t.state = PlayState.playing →
        isSameTrack s.track (some t') = true → t'.state = PlayState.playing →
        s.pausedAt = some p →
        GetPlayedDuration now (updatePositionCore now t' s) =
          GetPlayedDuration now s) := by
  have hresume : ∀ (s : TrackState) (now : Int) (t' : Track) (p : Int),
      isSameTrack s.track (some t') = true →
      t'.state = PlayState.playing → s.pausedAt = some p →
      updatePositionCore now t' s =
        { s with totalPlayTime := s.totalPlayTime + (p - s.startTime),
                 startTime := now, pausedAt := none } := by
    intro s now t' p hsame hplay hpause
    match hs : s.track with
    | none => rw [hs] at hsame; simp [isSameTrack] at hsame
    | some t =>
      unfold updatePositionCore
      rw [hs] at hsame ⊢
      simp [hsame, hplay, hpause]
  refine ⟨?_, ?_, hresume, ?_⟩
  · intro s now p hp
    simp [GetPlayedDuration, hp]
  · intro s now t hp ht hplay
    simp [GetPlayedDuration, hp, ht, hplay]
  · intro s now t t' p htrack hstate hsame hplay hpause
    rw [hresume s now t' p hsame hplay hpause]
    simp [GetPlayedDuration, hpause, htrack, hstate]

/-- Witness for `playedDuration_and_resume`: a 200-second track, played
from instant 0, paused at 60 s, resumed at 360 s. -/
theorem playedDuration_and_resume_witness :
    GetPlayedDuration 360000000000
      ⟨some ⟨"n", "a", "l", 200000000000, 0, PlayState.playing⟩,
       0, false, some 60000000000, 0⟩ = 60000000000 ∧
    GetPlayedDuration 360000000000
      (updatePositionCore 360000000000
        ⟨"n", "a", "l", 200000000000, 61000000000, PlayState.playing⟩
        ⟨some ⟨"n", "a", "l", 200000000000, 0, PlayState.playing⟩,
         0, false, some 60000000000, 0⟩) = 60000000000 := by
  constructor
  · rw [playedDuration_and_resume.1 _ 360000000000 60000000000 rfl]
    decide
  · rw [playedDuration_and_resume.2.2.2 _ _
      ⟨"n", "a", "l", 200000000000, 0, PlayState.playing⟩ _ 60000000000
      rfl rfl (by decide) rfl rfl]
    rw [playedDuration_and_resume.1 _ 360000000000 60000000000 rfl]
    decide

/-- `checkAndScrobble` is a no-op when the current play is already marked
scrobbled. -/
theorem checkAndScrobble_noop_of_scrobbled (now : Int) (s : StateM)
    (q : List Scrobble) (h : s.current.scrobbled = true) :
    checkAndScrobble now s q = (s, q) := by
  unfold checkAndScrobble
  match ht : s.current.track with
  | none => rfl
  | some track => simp [h]

/-- Every `checkAndScrobble` invocation either leaves the state and queue
unchanged or marks the (unchanged) current track scrobbled. -/
theorem checkAndScrobble_cases (now : Int) (s : StateM) (q : List Scrobble) :
    checkAndScrobble now s q = (s, q) ∨
      ((checkAndScrobble now s q).1.current.scrobbled = true ∧
       (checkAndScrobble now s q).1.current.track = s.current.track) := by
  unfold checkAndScrobble
  match ht : s.current.track with
  | none => left; rfl
  | some track =>
    by_cases hs : s.current.scrobbled
    · left; simp [hs]
    · by_cases hss : ShouldScrobble track.duration (GetPlayedDuration now s.current)
      · right
        simp [hs, hss, StateM.markScrobbled, markScrobbledCore, ht]
      · left
        simp [hs, hss]

/-- C7: with the play state fixed, running the eligibility
check-and-enqueue twice at the same instant yields the same state and
queue as running it once; and whenever an invocation enqueues, it marks
the play scrobbled and every later invocation (at any instant) is a
no-op. -/
theorem checkAndScrobble_idempotent :
    (∀ (now : Int) (s : StateM) (q : List Scrobble),
        checkAndScrobble now (checkAndScrobble now s q).1
            (checkAndScrobble now s q).2 =
          checkAndScrobble now s q) ∧
    (∀ (now now' : Int) (s : StateM) (q : List Scrobble),
        (checkAndScrobble now s q).2 ≠ q →
          (checkAndScrobble now s q).1.current.scrobbled = true ∧
          checkAndScrobble now' (checkAndScrobble now s q).1
              (checkAndScrobble now s q).2 =
            checkAndScrobble now s q) := by
  constructor
  · intro now s q
    rcases checkAndScrobble_cases now s q with h | ⟨h1, -⟩
    · rw [h]
      exact h
    · rw [checkAndScrobble_noop_of_scrobbled now _ _ h1]
  · intro now now' s q hne
    rcases checkAndScrobble_cases now s q with h | ⟨h1, -⟩
    · exact absurd (congrArg Prod.snd h) hne
    · exact ⟨h1, by rw [checkAndScrobble_noop_of_scrobbled now' _ _ h1]⟩

/-- Witness for `checkAndScrobble_idempotent`: a 200-second track at
100 s of continuous play; the check enqueues once and the repeat at a
later instant changes nothing. -/
theorem checkAndScrobble_idempotent_witness :
    (checkAndScrobble 100000000000
        ⟨⟨some ⟨"Song", "Artist", "Album", 200000000000, 0, PlayState.playing⟩,
          0, false, none, 0⟩, []⟩ []).1.current.scrobbled = true ∧
    checkAndScrobble 200000000000
        (checkAndScrobble 100000000000
          ⟨⟨some ⟨"Song", "Artist", "Album", 200000000000, 0, PlayState.playing⟩,
            0, false, none, 0⟩, []⟩ []).1
        (checkAndScrobble 100000000000
          ⟨⟨some ⟨"Song", "Artist", "Album", 200000000000, 0, PlayState.playing⟩,
            0, false, none, 0⟩, []⟩ []).2 =
      checkAndScrobble 100000000000
        ⟨⟨some ⟨"Song", "Artist", "Album", 200000000000, 0, PlayState.playing⟩,
          0, false, none, 0⟩, []⟩ [] :=
  checkAndScrobble_idempotent.2 100000000000 200000000000
    ⟨⟨some ⟨"Song", "Artist", "Album", 200000000000, 0, PlayState.playing⟩,
      0, false, none, 0⟩, []⟩ [] (by decide)

/-- C5 counterexample: two pure position updates (same track, Playing, no
pause/resume, no scrobbled flip — the in-memory state is unchanged by
both) 0.1 seconds apart each write the persisted state file: two writes
within the same second, where the claim allows at most one. -/
theorem updatePosition_writes_every_call_eval :
    (StateM.updatePosition 100000000
        ⟨"Song", "Artist", "Album", 200000000000, 5000000000, PlayState.playing⟩
        (StateM.updatePosition 0
          ⟨"Song", "Artist", "Album", 200000000000, 4000000000, PlayState.playing⟩
          ⟨⟨some ⟨"Song", "Artist", "Album", 200000000000, 3000000000,
              PlayState.playing⟩, 0, false, none, 0⟩, []⟩)).writes.length = 2 ∧
    (StateM.updatePosition 100000000
        ⟨"Song", "Artist", "Album", 200000000000, 5000000000, PlayState.playing⟩
        (StateM.updatePosition 0
          ⟨"Song", "Artist", "Album", 200000000000, 4000000000, PlayState.playing⟩
          ⟨⟨some ⟨"Song", "Artist", "Album", 200000000000, 3000000000,
              PlayState.playing⟩, 0, false, none, 0⟩, []⟩)).current =
      ⟨some ⟨"Song", "Artist", "Album", 200000000000, 3000000000,
        PlayState.playing⟩, 0, false, none, 0⟩ := by decide

/-- C5 amended: every `State` mutation — pure position updates included —
persists immediately: each call appends exactly one write to the state
file, with no dirty flag, no once-per-second coalescing and no deferred
flush. -/
theorem state_mutations_persist_immediately :
    ∀ (now : Int) (track : Track) (otrack : Option Track) (s : StateM),
      (s.updatePosition now track).writes =
          s.writes ++ [(s.updatePosition now track).current] ∧
      (s.setTrack now otrack).writes =
          s.writes ++ [(s.setTrack now otrack).current] ∧
      s.markScrobbled.writes = s.writes ++ [s.markScrobbled.current] ∧
      s.reset.writes = s.writes ++ [s.reset.current] :=
  fun _ _ _ _ => ⟨rfl, rfl, rfl, rfl⟩

/-- C1: evaluating `checkAndScrobble` at a play that started at wall-clock
0 and becomes eligible at 100 s: the queued entry's timestamp is
100 s — the instant the eligibility check fired (`time.Now()` in
`checkAndScrobble`) — not the play-start instant 0 stored in
`StartTime`. -/
theorem checkAndScrobble_timestamp_eval :
    (checkAndScrobble 100000000000
        ⟨⟨some ⟨"Song", "Artist", "Album", 200000000000, 0, PlayState.playing⟩,
          0, false, none, 0⟩, []⟩ []).2 =
      [⟨"Artist", "Song", "Album", 100000000000, 200000000000⟩] ∧
    (100000000000 : Int) ≠ 0 := by decide

/-- C8: `GetPending(limit)` returns only unsubmitted rows, in
non-decreasing timestamp order, at most `limit` of them when
`limit > 0` and all of them when `limit = 0`. -/
theorem getPending_spec :
    ∀ (limit : Int) (rows : List QueuedScrobble),
      (∀ r ∈ GetPending limit rows, r.scrobbled = false) ∧
      List.Sorted byTimestamp (GetPending limit rows) ∧
      (0 < limit → ((GetPending limit rows).length : Int) ≤ limit) ∧
      (limit = 0 →
        (GetPending limit rows).Perm
          (rows.filter (fun r => !r.scrobbled))) := by
  intro limit rows
  have hsorted : List.Sorted byTimestamp
      ((rows.filter (fun r => !r.scrobbled)).insertionSort byTimestamp) :=
    List.sorted_insertionSort byTimestamp _
  refine ⟨?_, ?_, ?_, ?_⟩
  · intro r hr
    unfold GetPending at hr
    have hmem : r ∈ (rows.filter (fun r => !r.scrobbled)).insertionSort
        byTimestamp := by
      by_cases h : limit > 0
      · rw [if_pos h] at hr
        exact List.mem_of_mem_take hr
      · rwa [if_neg h] at hr
    rw [List.mem_insertionSort] at hmem
    have := List.of_mem_filter hmem
    simpa using this
  · unfold GetPending
    by_cases h : limit > 0
    · rw [if_pos h]
      exact hsorted.sublist (List.take_sublist _ _)
    · rw [if_neg h]
      exact hsorted
  · intro h
    unfold GetPending
    rw [if_pos h]
    have := List.length_take limit.toNat
      ((rows.filter (fun r => !r.scrobbled)).insertionSort byTimestamp)
    omega
  · intro h
    subst h
    unfold GetPending
    rw [if_neg (by decide)]
    exact List.perm_insertionSort byTimestamp _

/-- Witness for `getPending_spec` at a concrete three-row table. -/
theorem getPending_spec_witness :
    (∀ r ∈ GetPending 2
        [⟨1, "t1", "a1", "l1", 180, 1000, false, ""⟩,
         ⟨2, "t2", "a2", "l2", 200, 900, false, ""⟩,
         ⟨3, "t3", "a3", "l3", 210, 800, true, ""⟩],
      r.scrobbled = false) ∧
    ((GetPending 2
        [⟨1, "t1", "a1", "l1", 180, 1000, false, ""⟩,
         ⟨2, "t2", "a2", "l2", 200, 900, false, ""⟩,
         ⟨3, "t3", "a3", "l3", 210, 800, true, ""⟩]).length : Int) ≤ 2 ∧
    (GetPending 0
        [⟨1, "t1", "a1", "l1", 180, 1000, false, ""⟩,
         ⟨2, "t2", "a2", "l2", 200, 900, false, ""⟩,
         ⟨3, "t3", "a3", "l3", 210, 800, true, ""⟩]).Perm
      ([⟨1, "t1", "a1", "l1", 180, 1000, false, ""⟩,
        ⟨2, "t2", "a2", "l2", 200, 900, false, ""⟩,
        ⟨3, "t3", "a3", "l3", 210, 800, true, ""⟩].filter
          (fun r => !r.scrobbled)) :=
  ⟨(getPending_spec 2 _).1,
   (getPending_spec 2 _).2.2.1 (by decide),
   (getPending_spec 0 _).2.2.2 rfl⟩

/-- C4 counterexample: the internal `Client.ScrobbleBatch` — the batch
path the daemon's queue drain calls — rejects a batch of 51 scrobbles
with an error instead of truncating it to the first 50 (its own unit test
asserts exactly this error). -/
theorem clientScrobbleBatch_rejects_51 :
    Client.ScrobbleBatch
        (List.replicate 51 ⟨"Artist", "Song", "Album", 0, 180000000000⟩) =
      Except.error "cannot scrobble more than 50 tracks at once (got 51)" := by
  rfl

/-- C4 amended: `pkg/lastfm`'s `ScrobbleService.ScrobbleBatch` truncates
oversized batches to their first 50 entries and submits those, while the
internal `Client.ScrobbleBatch` rejects batches of more than 50 with an
error and submits batches of at most 50 unchanged. -/
theorem scrobbleBatch_bound :
    (∀ (sk : String) (l : List Lastfm.Scrobble),
        sk ≠ "" → l.length > 50 →
        Lastfm.ScrobbleService.ScrobbleBatch sk l = Except.ok (l.take 50)) ∧
    (∀ l : List Scrobble, l.length > 50 →
        Client.ScrobbleBatch l =
          Except.error
            ("cannot scrobble more than 50 tracks at once (got " ++
              toString l.length ++ ")")) ∧
    (∀ l : List Scrobble, l ≠ [] → l.length ≤ 50 →
        Client.ScrobbleBatch l = Except.ok l) := by
  refine ⟨?_, ?_, ?_⟩
  · intro sk l hsk hlen
    unfold Lastfm.ScrobbleService.ScrobbleBatch
    rw [if_neg hsk, if_neg (by omega)]
    simp only [Lastfm.MaxBatchSize]
    rw [if_pos hlen]
  · intro l hlen
    unfold Client.ScrobbleBatch
    rw [if_neg (by omega), if_pos hlen]
  · intro l hne hlen
    unfold Client.ScrobbleBatch
    rw [if_neg (by simpa using hne), if_neg (by omega)]

/-- Witness for `scrobbleBatch_bound` at concrete batches of 51 and 2. -/
theorem scrobbleBatch_bound_witness :
    Lastfm.ScrobbleService.ScrobbleBatch "sk"
        (List.replicate 51 ⟨⟨"a", "t", "l", "", 180, 0, ""⟩, 0⟩) =
      Except.ok
        ((List.replicate 51
          (⟨⟨"a", "t", "l", "", 180, 0, ""⟩, 0⟩ : Lastfm.Scrobble)).take 50) ∧
    Client.ScrobbleBatch
        (List.replicate 2 ⟨"Artist", "Song", "Album", 0, 180000000000⟩) =
      Except.ok
        (List.replicate 2 ⟨"Artist", "Song", "Album", 0, 180000000000⟩) :=
  ⟨scrobbleBatch_bound.1 "sk" _ (by decide) (by decide),
   scrobbleBatch_bound.2.2 _ (by decide) (by decide)⟩

/-- C3 counterexample: a first response with Last.fm error code 29 (rate
limited) makes `Client.call` fail at once — one attempt, no retry — even
when a retry would have succeeded. -/
theorem call_code29_fails_immediately :
    Client.call
        [Response.apiFailed 29 "Rate limit exceeded",
         Response.okResponse "ok"] =
      (CallOutcome.apiError 29 "Rate limit exceeded", 1) := by
  rfl

/-- C3 amended: code 29 is not classified temporary — only codes 11 and 16
are — so a code-29 response is returned to the caller from the first
attempt, without retry or backoff. -/
theorem code29_not_retryable :
    Error.Temporary 29 = false ∧
    (∀ code : Int, Error.Temporary code = true ↔ code = 11 ∨ code = 16) ∧
    (∀ (msg : String) (rest : List Response),
        Client.call (Response.apiFailed 29 msg :: rest) =
          (CallOutcome.apiError 29 msg, 1)) := by
  refine ⟨rfl, ?_, ?_⟩
  · intro code
    simp [Error.Temporary]
  · intro msg rest
    unfold Client.call callGo
    simp [Error.Temporary]

/-- Witness for `code29_not_retryable`. -/
theorem code29_not_retryable_witness :
    (Error.Temporary 11 = true ↔ (11 : Int) = 11 ∨ (11 : Int) = 16) ∧
    Client.call [Response.apiFailed 29 "Rate limit exceeded"] =
      (CallOutcome.apiError 29 "Rate limit exceeded", 1) :=
  ⟨code29_not_retryable.2.1 11,
   code29_not_retryable.2.2 "Rate limit exceeded" []⟩

/-- In an association list with distinct keys, a member pair determines
the `lookup` result. -/
theorem lookup_eq_some_of_mem {l : List (String × String)} {k v : String}
    (hnd : (l.map Prod.fst).Nodup) (hmem : (k, v) ∈ l) :
    l.lookup k = some v := by
  induction l with
  | nil => cases hmem
  | cons x t ih =>
    rcases x with ⟨xk, xv⟩
    rcases List.mem_cons.mp hmem with heq | ht
    · rw [Prod.mk.injEq] at heq
      rcases heq with ⟨h1, h2⟩
      subst h1; subst h2
      simp [List.lookup]
    · have hk : k ≠ xk := by
        intro he
        subst he
        have hmap : k ∈ t.map Prod.fst := List.mem_map_of_mem Prod.fst ht
        exact (List.nodup_cons.mp hnd).1 hmap
      have hbeq : (k == xk) = false := beq_eq_false_iff_ne.mpr hk
      simp only [List.lookup, hbeq]
      exact ih (List.nodup_cons.mp hnd).2 ht

/-- A `lookup` hit belongs to the list. -/
theorem mem_of_lookup_eq_some {l : List (String × String)} {k v : String}
    (h : l.lookup k = some v) : (k, v) ∈ l := by
  induction l with
  | nil => cases h
  | cons x t ih =>
    rcases x with ⟨xk, xv⟩
    by_cases hk : k = xk
    · subst hk
      simp [List.lookup] at h
      subst h
      exact List.mem_cons_self _ _
    · have hbeq : (k == xk) = false := beq_eq_false_iff_ne.mpr hk
      simp only [List.lookup, hbeq] at h
      exact List.mem_cons_of_mem _ (ih h)

/-- A `lookup` miss means the key is absent. -/
theorem not_mem_keys_of_lookup_eq_none {l : List (String × String)}
    {k : String} (h : l.lookup k = none) : k ∉ l.map Prod.fst := by
  induction l with
  | nil => simp
  | cons x t ih =>
    rcases x with ⟨xk, xv⟩
    by_cases hk : k = xk
    · subst hk
      simp [List.lookup] at h
    · have hbeq : (k == xk) = false := beq_eq_false_iff_ne.mpr hk
      simp only [List.lookup, hbeq] at h
      simp only [List.map_cons, List.mem_cons]
      rintro (he | hmem)
      · exact hk he
      · exact ih h hmem

/-- `lookup` is invariant under permutation of an association list with
distinct keys. -/
theorem lookup_perm_eq {l₁ l₂ : List (String × String)}
    (h : l₁.Perm l₂) (hnd : (l₁.map Prod.fst).Nodup) (k : String) :
    l₁.lookup k = l₂.lookup k := by
  have hnd₂ : (l₂.map Prod.fst).Nodup := (h.map Prod.fst).nodup hnd
  cases hc : l₁.lookup k with
  | some v =>
    exact (lookup_eq_some_of_mem hnd₂
      (h.mem_iff.mp (mem_of_lookup_eq_some hc))).symm
  | none =>
    cases hc₂ : l₂.lookup k with
    | none => rfl
    | some v =>
      have : (k, v) ∈ l₁ := h.mem_iff.mpr (mem_of_lookup_eq_some hc₂)
      rw [lookup_eq_some_of_mem hnd this] at hc
      cases hc

/-- Sorting is invariant under permutation of the input. -/
theorem insertionSort_eq_of_perm {l₁ l₂ : List String} (h : l₁.Perm l₂) :
    l₁.insertionSort (· ≤ ·) = l₂.insertionSort (· ≤ ·) := by
  apply List.eq_of_perm_of_sorted _ (List.sorted_insertionSort _ l₁)
    (List.sorted_insertionSort _ l₂)
  exact (List.perm_insertionSort _ l₁).trans
    (h.trans (List.perm_insertionSort _ l₂).symm)

/-- Sorting the pairs by key and then projecting the keys is the same as
sorting the projected keys. -/
theorem map_fst_insertionSort (params : List (String × String)) :
    (params.insertionSort (fun a b => a.1 ≤ b.1)).map Prod.fst =
      (params.map Prod.fst).insertionSort (· ≤ ·) := by
  have hs : ((params.insertionSort (fun a b => a.1 ≤ b.1)).map
      Prod.fst).Sorted (· ≤ ·) :=
    List.pairwise_map.mpr
      (List.sorted_insertionSort (fun a b : String × String => a.1 ≤ b.1) params)
  apply List.eq_of_perm_of_sorted _ hs (List.sorted_insertionSort _ _)
  exact ((List.perm_insertionSort _ params).map Prod.fst).trans
    (List.perm_insertionSort _ _).symm

/-- `foldl` only depends on the combining function's behaviour on the
list's members. -/
theorem foldl_congr_mem {α β : Type} {l : List α} {f g : β → α → β}
    (h : ∀ x ∈ l, ∀ acc, f acc x = g acc x) :
    ∀ init, l.foldl f init = l.foldl g init := by
  induction l with
  | nil => intro init; rfl
  | cons x t ih =>
    intro init
    simp only [List.foldl_cons]
    rw [h x (List.mem_cons_self _ _) init]
    exact ih (fun y hy acc => h y (List.mem_cons_of_mem _ hy) acc) _

/-- C9: for parameter maps with distinct keys, `calculateSignature` equals
the hex MD5 of the alphabetical `key ∥ value` concatenation followed by
the secret (`specSignature`, worded from the specification), and is
invariant under reordering of the parameter list — a pure function of the
map's key-value pairs. -/
theorem calculateSignature_spec :
    (∀ (params : List (String × String)) (secret : String),
        (params.map Prod.fst).Nodup →
        calculateSignature params secret = specSignature params secret) ∧
    (∀ (p₁ p₂ : List (String × String)) (secret : String),
        p₁.Perm p₂ → (p₁.map Prod.fst).Nodup →
        calculateSignature p₁ secret = calculateSignature p₂ secret) := by
  constructor
  · intro params secret hnd
    simp only [calculateSignature, specSignature]
    rw [← map_fst_insertionSort params, List.foldl_map]
    have hfold :
        (params.insertionSort (fun a b => a.1 ≤ b.1)).foldl
            (fun acc kv => acc ++ kv.1 ++ ((params.lookup kv.1).getD "")) "" =
          (params.insertionSort (fun a b => a.1 ≤ b.1)).foldl
            (fun acc kv => acc ++ kv.1 ++ kv.2) "" := by
      apply foldl_congr_mem
      rintro ⟨k, v⟩ hmem acc
      have hp : (k, v) ∈ params := by
        have := (List.perm_insertionSort
          (fun a b : String × String => a.1 ≤ b.1) params).mem_iff.mp hmem
        exact this
      rw [lookup_eq_some_of_mem hnd hp]
      rfl
    rw [hfold]
  · intro p₁ p₂ secret hperm hnd
    simp only [calculateSignature]
    have hkeys :
        (p₁.map Prod.fst).insertionSort (· ≤ ·) =
          (p₂.map Prod.fst).insertionSort (· ≤ ·) :=
      insertionSort_eq_of_perm (hperm.map Prod.fst)
    have hfun :
        (fun (acc k : String) => acc ++ k ++ ((p₁.lookup k).getD "")) =
          fun acc k => acc ++ k ++ ((p₂.lookup k).getD "") := by
      funext acc k
      rw [lookup_perm_eq hperm hnd k]
    rw [hkeys, hfun]

/-- Witness for `calculateSignature_spec` on a concrete two-parameter
map presented in two different orders. -/
theorem calculateSignature_spec_witness :
    calculateSignature [("method", "auth.getToken"), ("api_key", "k")]
        "secret" =
      specSignature [("method", "auth.getToken"), ("api_key", "k")]
        "secret" ∧
    calculateSignature [("method", "auth.getToken"), ("api_key", "k")]
        "secret" =
      calculateSignature [("api_key", "k"), ("method", "auth.getToken")]
        "secret" :=
  ⟨calculateSignature_spec.1 _ "secret" (by decide),
   calculateSignature_spec.2 _ _ "secret" (List.Perm.swap _ _ _) (by decide)⟩

set_option maxRecDepth 10000

/-- The embedded MD5 agrees with the RFC 1321 test vectors for the empty
message and for `"abc"`. -/
theorem md5_rfc1321_vectors :
    MD5.hexEncode (MD5.md5Digest (utf8Bytes "")) =
      "d41d8cd98f00b204e9800998ecf8427e" ∧
    MD5.hexEncode (MD5.md5Digest (utf8Bytes "abc")) =
      "900150983cd24fb0d6963f7d28e17f72" := by
  constructor <;> decide

end Scribbles
